import Mathlib

/-!
Shallow embedding of the `chinese-mainland-holidays` Rust crate
(`src/lib.rs`, `src/holidays.rs`, `src/chrono.rs`).

Machine integers are modelled as `Nat`; wherever Rust's fixed-width
arithmetic could wrap, a dedicated `..._machine` definition applies the
explicit `% 2^w` reductions, and agreement with the pure version is proved
under the validity preconditions the crate relies on.
-/

/-- The type of a holiday or working day (`HolidayKind` in `src/lib.rs`). -/
inductive HolidayKind where
  | RegularHoliday
  | RegularWorkday
  | G0101Holiday
  | G0101Workday
  | L0101Holiday
  | L0101Workday
  | S05Holiday
  | S05Workday
  | G0501Holiday
  | G0501Workday
  | L0505Holiday
  | L0505Workday
  | L0815Holiday
  | L0815Workday
  | G1001Holiday
  | G1001Workday
  deriving DecidableEq, Repr

/-- Utility type for looking up holiday info (`HolidayDate` in `src/lib.rs`).
In Rust the fields are `year: u16`, `month: u8`, `day: u8`; they are modelled
as `Nat`, with the width bounds stated as hypotheses where they matter. -/
structure HolidayDate where
  year : Nat
  month : Nat
  day : Nat
  deriving DecidableEq, Repr

/-- Minimum year of which holidays are recorded (`MIN_YEAR` in `src/holidays.rs`). -/
def MIN_YEAR : Nat := 2024

/-- Maximum year of which holidays are recorded (`MAX_YEAR` in `src/holidays.rs`). -/
def MAX_YEAR : Nat := 2024

/-- `HolidayDate::from_ymd` from `src/lib.rs`: validates the year, the day
and the per-month day bound (leap-aware for February). -/
def HolidayDate.from_ymd (year month day : Nat) : Option HolidayDate :=
  if year = 0 then none
  else if day = 0 then none
  else if month = 1 ∨ month = 3 ∨ month = 5 ∨ month = 7 ∨ month = 8 ∨ month = 10 ∨ month = 12 then
    if day > 31 then none else some ⟨year, month, day⟩
  else if month = 4 ∨ month = 6 ∨ month = 9 ∨ month = 11 then
    if day > 30 then none else some ⟨year, month, day⟩
  else if month = 2 then
    if day > 28 ∧ ¬(day = 29 ∧ (year % 4 = 0 ∧ year % 100 ≠ 0 ∨ year % 400 = 0)) then none
    else some ⟨year, month, day⟩
  else none

/-- `HolidayDate::u32_value` from `src/lib.rs`:
`(year as u32 * 366) + (month as u32 * 31) + day as u32`.
For `u16`/`u8` fields the result is at most `65535*366 + 255*31 + 255 < 2^32`,
so the `u32` arithmetic never wraps and plain `Nat` arithmetic is exact. -/
def HolidayDate.u32_value (d : HolidayDate) : Nat :=
  d.year * 366 + d.month * 31 + d.day

/-- The derived lexicographic order on `(year, month, day)`
(`#[derive(PartialOrd, Ord)]` on `HolidayDate` in `src/lib.rs`). -/
def HolidayDate.lt (a b : HolidayDate) : Prop :=
  a.year < b.year ∨ (a.year = b.year ∧
    (a.month < b.month ∨ (a.month = b.month ∧ a.day < b.day)))

instance (a b : HolidayDate) : Decidable (HolidayDate.lt a b) := by
  unfold HolidayDate.lt; infer_instance

/-- `day_of_week` from `src/lib.rs` (Zeller's congruence, RFC 3339 appendix B
variant), with the fixed-width arithmetic replaced by exact `Nat` arithmetic.
`day_of_week_machine` below keeps the `u8`/`u16` wrapping;
the two agree on valid dates. -/
def day_of_week (year month day : Nat) : Nat :=
  let m : Nat := if month > 2 then month - 2 else month + 10
  let y0 : Nat := if month > 2 then year else year - 1
  let c := y0 / 100
  let y := y0 % 100
  ((13 * m - 1) / 5 + day + y + y / 4 + c / 4 + 5 * c) % 7

/-- `day_of_week` with Rust's release-mode wrapping semantics made explicit:
every `u8` operation is reduced `% 256`, every `u16` operation `% 65536`
(`year - 1` wraps as `year + 65535`, `13 * m - 1` wraps as `+ 255`). -/
def day_of_week_machine (year month day : Nat) : Nat :=
  let m : Nat := if month > 2 then month - 2 else (month + 10) % 256
  let y0 : Nat := if month > 2 then year else (year + 65535) % 65536
  let c := y0 / 100
  let y := y0 % 100
  let t := ((13 * m) % 256 + 255) % 256
  let u := (t / 5 + day) % 256
  (u + y + y / 4 + c / 4 + 5 * c) % 65536 % 7

/-- The bounds under which every intermediate value of `day_of_week` fits its
Rust integer width: `13*m` and `(13*m-1)/5 + day` fit `u8`, `year - 1` does
not underflow, and the final `u16` sum fits `u16`. -/
def dowNoOverflow (year month day : Nat) : Prop :=
  let m : Nat := if month > 2 then month - 2 else month + 10
  let y0 : Nat := if month > 2 then year else year - 1
  let c := y0 / 100
  1 ≤ 13 * m ∧ 13 * m < 256 ∧ (13 * m - 1) / 5 + day < 256 ∧
    (month ≤ 2 → 1 ≤ year) ∧
    (13 * m - 1) / 5 + day + y0 % 100 + y0 % 100 / 4 + c / 4 + 5 * c < 65536

instance (year month day : Nat) : Decidable (dowNoOverflow year month day) := by
  unfold dowNoOverflow; infer_instance

/-- The override table of `src/holidays.rs`, kept as the source writes it:
one `(HolidayDate, HolidayKind)` record per `record!(y m d kind)` line. -/
def HOLIDAYS_RECORDS : List (HolidayDate × HolidayKind) :=
  [ (⟨2024, 1, 1⟩, .G0101Holiday),
    (⟨2024, 2, 4⟩, .L0101Workday),
    (⟨2024, 2, 12⟩, .L0101Holiday),
    (⟨2024, 2, 13⟩, .L0101Holiday),
    (⟨2024, 2, 14⟩, .L0101Holiday),
    (⟨2024, 2, 15⟩, .L0101Holiday),
    (⟨2024, 2, 16⟩, .L0101Holiday),
    (⟨2024, 2, 18⟩, .L0101Workday),
    (⟨2024, 4, 4⟩, .S05Holiday),
    (⟨2024, 4, 5⟩, .S05Holiday),
    (⟨2024, 4, 7⟩, .S05Workday),
    (⟨2024, 4, 28⟩, .G0501Workday),
    (⟨2024, 5, 1⟩, .G0501Holiday),
    (⟨2024, 5, 2⟩, .G0501Holiday),
    (⟨2024, 5, 3⟩, .G0501Holiday),
    (⟨2024, 5, 11⟩, .G0501Workday),
    (⟨2024, 6, 10⟩, .L0505Holiday),
    (⟨2024, 9, 14⟩, .L0815Workday),
    (⟨2024, 9, 16⟩, .L0815Holiday),
    (⟨2024, 9, 17⟩, .L0815Holiday),
    (⟨2024, 9, 29⟩, .G1001Workday),
    (⟨2024, 10, 1⟩, .G1001Holiday),
    (⟨2024, 10, 2⟩, .G1001Holiday),
    (⟨2024, 10, 3⟩, .G1001Holiday),
    (⟨2024, 10, 4⟩, .G1001Holiday),
    (⟨2024, 10, 7⟩, .G1001Holiday),
    (⟨2024, 10, 12⟩, .G1001Workday) ]

/-- `HOLIDAYS` from `src/holidays.rs`: the `record!` macro stores
`(date.u32_value(), kind)` pairs. -/
def HOLIDAYS : List (Nat × HolidayKind) :=
  HOLIDAYS_RECORDS.map (fun p => (p.1.u32_value, p.2))

/-- One step of `slice::binary_search_by_key` over `[left, right)`,
fuelled for structural recursion (the fuel is always sufficient because the
width `right - left` strictly decreases). On the probe `xs[mid]` it either
recurses into a half or returns the matching entry; Rust returns the index
`Ok(mid)` and the caller immediately reads `HOLIDAYS[mid].1`, so the entry
itself is returned here. -/
def binarySearchGo (xs : List (Nat × HolidayKind)) (target : Nat) :
    Nat → Nat → Nat → Option (Nat × HolidayKind)
  | _, _, 0 => none
  | left, right, fuel + 1 =>
    if left < right then
      match xs[left + (right - left) / 2]? with
      | none => none
      | some e =>
        if e.1 < target then binarySearchGo xs target (left + (right - left) / 2 + 1) right fuel
        else if target < e.1 then binarySearchGo xs target left (left + (right - left) / 2) fuel
        else some e
    else none

/-- `slice::binary_search_by_key` as used by `holiday_kind`:
search the whole table for an exact key match. -/
def binary_search (xs : List (Nat × HolidayKind)) (target : Nat) :
    Option (Nat × HolidayKind) :=
  binarySearchGo xs target 0 xs.length (xs.length + 1)

/-- The day-of-week match inside `holiday_kind` (`src/lib.rs`):
`0 | 6 => RegularHoliday`, `1..=5 => RegularWorkday`; the `none` result
models the `unreachable!()` panic arm. -/
def dowMatch (w : Nat) : Option HolidayKind :=
  if w = 0 ∨ w = 6 then some .RegularHoliday
  else if 1 ≤ w ∧ w ≤ 5 then some .RegularWorkday
  else none

/-- `HolidayLike::holiday_kind` for `HolidayDate` (`src/lib.rs`):
`None` when the year is outside `[MIN_YEAR, MAX_YEAR]`; otherwise the
override-table entry on an exact key match, else the weekend/weekday
default from `day_of_week`. -/
def holiday_kind (dt : HolidayDate) : Option HolidayKind :=
  if dt.year < MIN_YEAR ∨ dt.year > MAX_YEAR then none
  else
    match binary_search HOLIDAYS dt.u32_value with
    | some e => some e.2
    | none => dowMatch (day_of_week dt.year dt.month dt.day)

/-- The kind-to-bool mapping of the exhaustive match inside
`HolidayLike::is_holiday` (`src/lib.rs`). -/
def kindIsHoliday : HolidayKind → Bool
  | .RegularHoliday | .G0101Holiday | .L0101Holiday | .S05Holiday
  | .G0501Holiday | .L0505Holiday | .L0815Holiday | .G1001Holiday => true
  | .RegularWorkday | .G0101Workday | .L0101Workday | .S05Workday
  | .G0501Workday | .L0505Workday | .L0815Workday | .G1001Workday => false

/-- `HolidayLike::is_holiday` default method (`src/lib.rs`): propagates
`holiday_kind`'s `None` via `?`, then maps the kind through the exhaustive
match. -/
def is_holiday (dt : HolidayDate) : Option Bool :=
  match holiday_kind dt with
  | none => none
  | some k =>
    match k with
    | .RegularHoliday | .G0101Holiday | .L0101Holiday | .S05Holiday
    | .G0501Holiday | .L0505Holiday | .L0815Holiday | .G1001Holiday => some true
    | .RegularWorkday | .G0101Workday | .L0101Workday | .S05Workday
    | .G0501Workday | .L0505Workday | .L0815Workday | .G1001Workday => some false

/-! ### Model of the `chrono` adapter (`src/chrono.rs`)

The adapter converts foreign `chrono` values into `HolidayDate`.  The
`chrono` crate itself is an external dependency, so its types are modelled
here: a `NaiveDate` is a structurally valid proleptic Gregorian date whose
year is a signed integer (`chrono` accepts year `0` and negative years,
well beyond `u16`), and a zoned `DateTime` is a Unix-epoch instant. -/

/-- Model of `chrono::NaiveDate`: an `(year, month, day)` triple with a
signed year. -/
structure NaiveDate where
  year : Int
  month : Nat
  day : Nat
  deriving DecidableEq, Repr

/-- The proleptic Gregorian leap rule over signed years, as `chrono` uses. -/
def intLeap (y : Int) : Prop :=
  y % 4 = 0 ∧ y % 100 ≠ 0 ∨ y % 400 = 0

instance (y : Int) : Decidable (intLeap y) := by
  unfold intLeap; infer_instance

/-- Length of a month for a signed year under the Gregorian rule. -/
def intMonthLength (y : Int) (m : Nat) : Nat :=
  if m = 2 then (if intLeap y then 29 else 28)
  else if m = 4 ∨ m = 6 ∨ m = 9 ∨ m = 11 then 30
  else 31

/-- Structural validity of a modelled `chrono::NaiveDate`: month in `1..=12`
and day in range for the month.  `chrono::NaiveDate::from_ymd_opt` accepts
year `0` (1 BC) and negative years, so no lower bound on the year is part of
validity. -/
def NaiveDate.valid (nd : NaiveDate) : Prop :=
  1 ≤ nd.month ∧ nd.month ≤ 12 ∧ 1 ≤ nd.day ∧ nd.day ≤ intMonthLength nd.year nd.month

instance (nd : NaiveDate) : Decidable nd.valid := by
  unfold NaiveDate.valid; infer_instance

/-- `impl From<NaiveDate> for HolidayDate` (`src/chrono.rs`): copies the
fields through the primitive casts `year() as u16`, `month() as u8`,
`day() as u8`, which truncate to the low bits. -/
def HolidayDate.fromNaiveDate (nd : NaiveDate) : HolidayDate :=
  { year := (nd.year % 65536).toNat, month := nd.month % 256, day := nd.day % 256 }

/-- Model of `chrono::NaiveDateTime`: a civil date plus a time of day in
seconds, which the adapter discards (`value.date().into()`). -/
structure NaiveDateTime where
  date : NaiveDate
  secondOfDay : Nat
  deriving DecidableEq, Repr

/-- `impl From<NaiveDateTime> for HolidayDate` (`src/chrono.rs`). -/
def HolidayDate.fromNaiveDateTime (ndt : NaiveDateTime) : HolidayDate :=
  HolidayDate.fromNaiveDate ndt.date

/-- Modelled from the spec: `chrono`'s civil-from-day-number conversion
(`date_naive` after `with_timezone`) is library code outside this
repository.  This is the standard proleptic Gregorian algorithm mapping a
day count relative to 1970-01-01 to `(year, month, day)`. -/
def civilFromDays (z : Int) : Int × Nat × Nat :=
  let z' := z + 719468
  let era := (if 0 ≤ z' then z' else z' - 146096).tdiv 146097
  let doe := (z' - era * 146097).toNat
  let yoe := (doe - doe / 1460 + doe / 36524 - doe / 146096) / 365
  let y := (yoe : Int) + era * 400
  let doy := doe - (365 * yoe + yoe / 4 - yoe / 100)
  let mp := (5 * doy + 2) / 153
  let d := doy - (153 * mp + 2) / 5 + 1
  let m := if mp < 10 then mp + 3 else mp - 9
  (if mp < 10 then y else y + 1, m, d)

/-- Modelled from the spec: the inverse day-number computation, used only to
tie concrete Unix timestamps to the civil dates they denote. -/
def daysFromCivil (y : Int) (m d : Nat) : Int :=
  let yAdj := if m ≤ 2 then y - 1 else y
  let era := (if 0 ≤ yAdj then yAdj else yAdj - 399).tdiv 400
  let yoe := (yAdj - era * 400).toNat
  let mp := if 2 < m then m - 3 else m + 9
  let doy := (153 * mp + 2) / 5 + d - 1
  let doe := yoe * 365 + yoe / 4 - yoe / 100 + doy
  era * 146097 + (doe : Int) - 719468

/-- Model of `chrono::DateTime<Tz>`: the instant, as seconds since the Unix
epoch (the zone only affects display, not the instant). -/
structure ZonedDateTime where
  utcSeconds : Int
  deriving DecidableEq, Repr

/-- `impl<Tz: TimeZone> From<DateTime<Tz>> for HolidayDate` (`src/chrono.rs`):
re-expresses the instant at the fixed offset `FixedOffset::east(28800)`
(UTC+8) and keeps only the resulting civil date. -/
def HolidayDate.fromZonedDateTime (dt : ZonedDateTime) : HolidayDate :=
  let localDays := (dt.utcSeconds + 28800).fdiv 86400
  let c := civilFromDays localDays
  HolidayDate.fromNaiveDate ⟨c.1, c.2.1, c.2.2⟩


/-! ### Specification-side predicates

These follow the spec's wording (ranges and the leap rule) and are compared
with the source-derived definitions in the refinement claims. -/

/-- The standard Gregorian leap rule over `Nat` years, as the spec words it:
divisible by 4 and not by 100, unless divisible by 400. -/
def isLeapYear (y : Nat) : Prop :=
  y % 4 = 0 ∧ y % 100 ≠ 0 ∨ y % 400 = 0

instance (y : Nat) : Decidable (isLeapYear y) := by
  unfold isLeapYear; infer_instance

/-- Day-of-month bound as the spec words it: 31 for
Jan/Mar/May/Jul/Aug/Oct/Dec, 30 for Apr/Jun/Sep/Nov, 28 or 29 for February
by the leap rule. -/
def monthLength (y m : Nat) : Nat :=
  if m = 2 then (if isLeapYear y then 29 else 28)
  else if m = 4 ∨ m = 6 ∨ m = 9 ∨ m = 11 then 30
  else 31

/-- A real proleptic Gregorian date with year at least 1, as the spec words
the validity condition. -/
def isRealDate (y m d : Nat) : Prop :=
  1 ≤ y ∧ 1 ≤ m ∧ m ≤ 12 ∧ 1 ≤ d ∧ d ≤ monthLength y m

instance (y m d : Nat) : Decidable (isRealDate y m d) := by
  unfold isRealDate; infer_instance

/-- The spec's §4.2 wording of Zeller's congruence: January and February are
months 13 and 14 of the previous year, then `m = month - 2`. -/
def day_of_week_spec (year month day : Nat) : Nat :=
  let yAdj := if month ≤ 2 then year - 1 else year
  let mAdj := if month ≤ 2 then month + 12 else month
  let m := mAdj - 2
  let c := yAdj / 100
  let y := yAdj % 100
  ((13 * m - 1) / 5 + day + y + y / 4 + c / 4 + 5 * c) % 7

/-! ### Helper lemmas -/

theorem from_ymd_eq_ite (y m d : Nat) :
    HolidayDate.from_ymd y m d = if isRealDate y m d then some ⟨y, m, d⟩ else none := by
  unfold HolidayDate.from_ymd isRealDate monthLength isLeapYear
  split_ifs <;> first | rfl | (exfalso; omega)

theorem from_ymd_inv {y m d : Nat} {dt : HolidayDate}
    (h : HolidayDate.from_ymd y m d = some dt) :
    dt = ⟨y, m, d⟩ ∧ 1 ≤ y ∧ 1 ≤ m ∧ m ≤ 12 ∧ 1 ≤ d ∧ d ≤ 31 := by
  rw [from_ymd_eq_ite] at h
  split_ifs at h with hv
  unfold isRealDate monthLength at hv
  cases h
  refine ⟨rfl, hv.1, hv.2.1, hv.2.2.1, hv.2.2.2.1, ?_⟩
  have := hv.2.2.2.2
  split_ifs at this <;> omega

theorem day_of_week_lt (y m d : Nat) : day_of_week y m d < 7 :=
  Nat.mod_lt _ (by decide)

theorem dowMatch_ne_none {w : Nat} (h : w < 7) : dowMatch w ≠ none := by
  unfold dowMatch
  split_ifs with h1 h2
  · exact Option.some_ne_none _
  · exact Option.some_ne_none _
  · exfalso; omega

theorem binarySearchGo_eq_some {xs : List (Nat × HolidayKind)} {target : Nat} :
    ∀ {fuel left right : Nat} {e : Nat × HolidayKind},
      binarySearchGo xs target left right fuel = some e → e ∈ xs ∧ e.1 = target := by
  intro fuel
  induction fuel with
  | zero => intro _ _ _ h; simp [binarySearchGo] at h
  | succ n ih =>
    intro left right e h
    unfold binarySearchGo at h
    split_ifs at h with hlr
    · cases hg : xs[left + (right - left) / 2]? with
      | none => rw [hg] at h; cases h
      | some e' =>
        simp only [hg] at h
        by_cases h1 : e'.1 < target
        · rw [if_pos h1] at h; exact ih h
        · rw [if_neg h1] at h
          by_cases h2 : target < e'.1
          · rw [if_pos h2] at h; exact ih h
          · rw [if_neg h2] at h
            cases h
            exact ⟨List.getElem?_mem hg, by omega⟩

theorem binary_search_eq_some {target : Nat} {e : Nat × HolidayKind}
    (h : binary_search HOLIDAYS target = some e) : e ∈ HOLIDAYS ∧ e.1 = target :=
  binarySearchGo_eq_some h

theorem binary_search_found :
    ∀ e ∈ HOLIDAYS, binary_search HOLIDAYS e.1 = some e := by decide

theorem holiday_kind_eq_of_mem {dt : HolidayDate} {k : HolidayKind}
    (hy1 : MIN_YEAR ≤ dt.year) (hy2 : dt.year ≤ MAX_YEAR)
    (hmem : (dt.u32_value, k) ∈ HOLIDAYS) :
    holiday_kind dt = some k := by
  unfold holiday_kind
  rw [if_neg (by omega)]
  rw [binary_search_found _ hmem]

theorem holiday_kind_in_range {dt : HolidayDate}
    (hy1 : MIN_YEAR ≤ dt.year) (hy2 : dt.year ≤ MAX_YEAR) :
    (holiday_kind dt).isSome = true := by
  unfold holiday_kind
  rw [if_neg (by omega)]
  cases hb : binary_search HOLIDAYS dt.u32_value with
  | some e => rfl
  | none =>
    cases hd : dowMatch (day_of_week dt.year dt.month dt.day) with
    | some k => rfl
    | none => exact absurd hd (dowMatch_ne_none (day_of_week_lt _ _ _))

theorem holiday_kind_eq_none_iff (dt : HolidayDate) :
    holiday_kind dt = none ↔ (dt.year < MIN_YEAR ∨ MAX_YEAR < dt.year) := by
  constructor
  · intro h
    by_contra hc
    push_neg at hc
    have hs := holiday_kind_in_range hc.1 hc.2
    rw [h] at hs
    cases hs
  · intro h
    unfold holiday_kind
    rw [if_pos (by omega)]

theorem is_holiday_eq_map (dt : HolidayDate) :
    is_holiday dt = (holiday_kind dt).map kindIsHoliday := by
  unfold is_holiday
  cases h : holiday_kind dt with
  | none => rfl
  | some k => cases k <;> rfl

theorem holiday_kind_fallback {dt : HolidayDate}
    (hy1 : MIN_YEAR ≤ dt.year) (hy2 : dt.year ≤ MAX_YEAR)
    (hnm : ∀ e ∈ HOLIDAYS, e.1 ≠ dt.u32_value) :
    holiday_kind dt = dowMatch (day_of_week dt.year dt.month dt.day) := by
  unfold holiday_kind
  rw [if_neg (by omega)]
  cases hb : binary_search HOLIDAYS dt.u32_value with
  | none => rfl
  | some e =>
    obtain ⟨hmem, heq⟩ := binary_search_eq_some hb
    exact absurd heq (hnm e hmem)


/-! ### Claims -/

/-- Claim C2: `holiday_kind` and `is_holiday` return `none` exactly when the
queried year is outside `[MIN_YEAR, MAX_YEAR]`; on any other date both return
`some`; and `is_holiday` is the image of `holiday_kind` under the kind-to-bool
mapping, so it propagates the very same `none` condition instead of
re-evaluating it. -/
theorem claim_c2 (dt : HolidayDate) :
    ((dt.year < MIN_YEAR ∨ MAX_YEAR < dt.year) ↔ holiday_kind dt = none) ∧
    ((dt.year < MIN_YEAR ∨ MAX_YEAR < dt.year) ↔ is_holiday dt = none) ∧
    is_holiday dt = (holiday_kind dt).map kindIsHoliday := by
  refine ⟨(holiday_kind_eq_none_iff dt).symm, ?_, is_holiday_eq_map dt⟩
  rw [is_holiday_eq_map dt, Option.map_eq_none']
  exact (holiday_kind_eq_none_iff dt).symm

/-- Claim C3: `is_holiday` is exhaustive over every `HolidayKind` variant,
mapping each `*Holiday` variant to `some true` and each `*Workday` variant to
`some false`; no variant maps to neither. -/
theorem claim_c3 :
    kindIsHoliday .RegularHoliday = true ∧
    kindIsHoliday .G0101Holiday = true ∧
    kindIsHoliday .L0101Holiday = true ∧
    kindIsHoliday .S05Holiday = true ∧
    kindIsHoliday .G0501Holiday = true ∧
    kindIsHoliday .L0505Holiday = true ∧
    kindIsHoliday .L0815Holiday = true ∧
    kindIsHoliday .G1001Holiday = true ∧
    kindIsHoliday .RegularWorkday = false ∧
    kindIsHoliday .G0101Workday = false ∧
    kindIsHoliday .L0101Workday = false ∧
    kindIsHoliday .S05Workday = false ∧
    kindIsHoliday .G0501Workday = false ∧
    kindIsHoliday .L0505Workday = false ∧
    kindIsHoliday .L0815Workday = false ∧
    kindIsHoliday .G1001Workday = false ∧
    ∀ dt : HolidayDate, is_holiday dt = (holiday_kind dt).map kindIsHoliday := by
  refine ⟨rfl, rfl, rfl, rfl, rfl, rfl, rfl, rfl, rfl, rfl, rfl, rfl, rfl, rfl, rfl, rfl, ?_⟩
  exact is_holiday_eq_map

/-- Claim C5: `from_ymd` returns `some` exactly on real proleptic Gregorian
dates with year at least 1 (month 1-12, day at least 1 and at most the
month's leap-aware bound), and `none` otherwise. -/
theorem claim_c5 (y m d : Nat) :
    HolidayDate.from_ymd y m d = (if isRealDate y m d then some ⟨y, m, d⟩ else none) ∧
    ((HolidayDate.from_ymd y m d).isSome = true ↔ isRealDate y m d) := by
  refine ⟨from_ymd_eq_ite y m d, ?_⟩
  rw [from_ymd_eq_ite y m d]
  split_ifs with h <;> simp [h]

/-- Claim C7: the override table has strictly increasing keys, every recorded
date's year lies in `[MIN_YEAR, MAX_YEAR]`, and the first and last keys lie
strictly between the year bounds scaled by 366. -/
theorem claim_c7 :
    List.Pairwise (fun a b : Nat × HolidayKind => a.1 < b.1) HOLIDAYS ∧
    HOLIDAYS_RECORDS.all
      (fun p => MIN_YEAR ≤ p.1.year && p.1.year ≤ MAX_YEAR) = true ∧
    MIN_YEAR * 366 < (HOLIDAYS.map Prod.fst).headD 0 ∧
    (HOLIDAYS.map Prod.fst).headD 0 < (MIN_YEAR + 1) * 366 ∧
    MAX_YEAR * 366 < (HOLIDAYS.map Prod.fst).getLastD 0 ∧
    (HOLIDAYS.map Prod.fst).getLastD 0 < (MAX_YEAR + 1) * 366 := by decide

/-- Claim C10: the published bounds are `MIN_YEAR = MAX_YEAR = 2024`, so
`holiday_kind` and `is_holiday` return `some` exactly on dates whose year is
2024 and `none` for every other year. -/
theorem claim_c10 :
    MIN_YEAR = 2024 ∧ MAX_YEAR = 2024 ∧
    ∀ dt : HolidayDate,
      ((holiday_kind dt).isSome = true ↔ dt.year = 2024) ∧
      ((is_holiday dt).isSome = true ↔ dt.year = 2024) := by
  refine ⟨rfl, rfl, ?_⟩
  intro dt
  have e1 : MIN_YEAR = 2024 := rfl
  have e2 : MAX_YEAR = 2024 := rfl
  have hk : (holiday_kind dt).isSome = true ↔ dt.year = 2024 := by
    constructor
    · intro hs
      by_contra hc
      have hn : holiday_kind dt = none := (holiday_kind_eq_none_iff dt).2 (by omega)
      rw [hn] at hs
      cases hs
    · intro hy
      exact holiday_kind_in_range (by omega) (by omega)
  refine ⟨hk, ?_⟩
  rw [is_holiday_eq_map dt]
  rcases h2 : holiday_kind dt with _ | k <;> rw [h2] at hk <;> simpa using hk

/-- Claim C1: for every valid date with year in `[MIN_YEAR, MAX_YEAR]`,
`holiday_kind` returns the override-table kind on an exact key match
(unconditionally, even against the weekend/weekday default — e.g. the Sunday
2024-02-04 yields `L0101Workday` and the Saturday 2024-09-14 yields
`L0815Workday`); with no matching key it returns `RegularHoliday` when
`day_of_week` is 0 or 6 and `RegularWorkday` when it is 1 through 5. -/
theorem claim_c1 :
    (∀ y m d dt, HolidayDate.from_ymd y m d = some dt →
      MIN_YEAR ≤ dt.year → dt.year ≤ MAX_YEAR →
      (∀ k, (dt.u32_value, k) ∈ HOLIDAYS → holiday_kind dt = some k) ∧
      ((∀ e ∈ HOLIDAYS, e.1 ≠ dt.u32_value) →
        ((day_of_week dt.year dt.month dt.day = 0 ∨ day_of_week dt.year dt.month dt.day = 6) →
          holiday_kind dt = some .RegularHoliday) ∧
        (1 ≤ day_of_week dt.year dt.month dt.day → day_of_week dt.year dt.month dt.day ≤ 5 →
          holiday_kind dt = some .RegularWorkday))) ∧
    day_of_week 2024 2 4 = 0 ∧ holiday_kind ⟨2024, 2, 4⟩ = some .L0101Workday ∧
    day_of_week 2024 9 14 = 6 ∧ holiday_kind ⟨2024, 9, 14⟩ = some .L0815Workday := by
  refine ⟨?_, by decide, by decide, by decide, by decide⟩
  intro y m d dt _hval hy1 hy2
  constructor
  · intro k hk
    exact holiday_kind_eq_of_mem hy1 hy2 hk
  · intro hnm
    have hfb := holiday_kind_fallback hy1 hy2 hnm
    constructor
    · intro hw
      rw [hfb]
      unfold dowMatch
      rw [if_pos hw]
    · intro hw1 hw5
      rw [hfb]
      unfold dowMatch
      rw [if_neg (by omega), if_pos ⟨hw1, hw5⟩]

/-- Witness for C1: at the concrete valid in-range dates 2024-02-04 (whose
key is in the table) and 2024-10-13 (a Sunday whose key is not), the two
branches of the claim instantiate to concrete classifications. -/
theorem claim_c1_witness :
    holiday_kind ⟨2024, 2, 4⟩ = some .L0101Workday ∧
    holiday_kind ⟨2024, 10, 13⟩ = some .RegularHoliday := by
  constructor
  · exact (claim_c1.1 2024 2 4 ⟨2024, 2, 4⟩ (by decide) (by decide) (by decide)).1
      .L0101Workday (by decide)
  · exact ((claim_c1.1 2024 10 13 ⟨2024, 10, 13⟩ (by decide) (by decide) (by decide)).2
      (by decide)).1 (by decide)

/-- Claim C4: `day_of_week` implements Zeller's congruence exactly as the
spec words it (January and February as months 13 and 14 of the previous
year), always lands in `[0, 6]` with 0 = Sunday and 6 = Saturday (anchored by
the real-world Sunday 2024-10-06 and Saturday 2024-10-05), and in particular
`day_of_week 2024 2 29 = 4` and `day_of_week 2024 10 1 = 2`. -/
theorem claim_c4 :
    (∀ y m d, day_of_week y m d = day_of_week_spec y m d ∧ day_of_week y m d ≤ 6) ∧
    day_of_week 2024 2 29 = 4 ∧ day_of_week 2024 10 1 = 2 ∧
    day_of_week 2024 10 6 = 0 ∧ day_of_week 2024 10 5 = 6 := by
  refine ⟨?_, by decide, by decide, by decide, by decide⟩
  intro y m d
  refine ⟨?_, by have := day_of_week_lt y m d; omega⟩
  unfold day_of_week day_of_week_spec
  by_cases h : m > 2
  · have h2 : ¬(m ≤ 2) := by omega
    simp only [if_pos h, if_neg h2]
  · have h2 : m ≤ 2 := by omega
    simp only [if_neg h, if_pos h2]
    have h3 : m + 12 - 2 = m + 10 := by omega
    rw [h3]

/-- Counterexample to C6 as stated: 2024-12-31 precedes 2025-01-01 in the
lexicographic `(year, month, day)` order, both are valid dates, yet the first
has the larger numeric key (741187 versus 741182) — indeed
`month*31 + day` reaches `12*31 + 31 = 403 ≥ 366`, contradicting the spec's
claimed bound. -/
theorem claim_c6_counterexample :
    HolidayDate.from_ymd 2024 12 31 = some ⟨2024, 12, 31⟩ ∧
    HolidayDate.from_ymd 2025 1 1 = some ⟨2025, 1, 1⟩ ∧
    HolidayDate.lt ⟨2024, 12, 31⟩ ⟨2025, 1, 1⟩ ∧
    ¬ HolidayDate.u32_value ⟨2024, 12, 31⟩ < HolidayDate.u32_value ⟨2025, 1, 1⟩ ∧
    HolidayDate.u32_value ⟨2024, 12, 26⟩ = HolidayDate.u32_value ⟨2025, 1, 1⟩ := by
  decide

/-- Claim C6 as amended: the numeric projection `u32_value` is strictly
monotonic with respect to the lexicographic `(month, day)` order for valid
dates of the same year (which is all the override-table lookup relies on,
since the table spans a single year); across a year boundary it can decrease,
because `month*31 + day` ranges up to 403, not below 366. -/
theorem claim_c6_amended (a b : HolidayDate)
    (ha : HolidayDate.from_ymd a.year a.month a.day = some a)
    (hb : HolidayDate.from_ymd b.year b.month b.day = some b)
    (hy : a.year = b.year) (hlt : HolidayDate.lt a b) :
    a.u32_value < b.u32_value := by
  obtain ⟨-, -, -, hma, hda1, hda31⟩ := from_ymd_inv ha
  obtain ⟨-, -, -, hmb, hdb1, hdb31⟩ := from_ymd_inv hb
  unfold HolidayDate.lt at hlt
  unfold HolidayDate.u32_value
  omega

/-- Witness for the amended C6 at concrete same-year dates. -/
theorem claim_c6_amended_witness :
    HolidayDate.u32_value ⟨2024, 5, 1⟩ < HolidayDate.u32_value ⟨2024, 10, 1⟩ :=
  claim_c6_amended ⟨2024, 5, 1⟩ ⟨2024, 10, 1⟩ (by decide) (by decide) rfl (by decide)

/-- Claim C8: for every valid calendar date (with the year in `u16` range),
none of `day_of_week`'s intermediate values overflows or underflows its Rust
integer width — the wrapping-semantics version agrees with the exact one —
the result is in `[0, 6]`, so the `unreachable!()` arm of `holiday_kind`'s
day-of-week match is never taken and `holiday_kind` never panics (it is
`some` on every in-range date). -/
theorem claim_c8 (y m d : Nat) (dt : HolidayDate)
    (hval : HolidayDate.from_ymd y m d = some dt) (hy16 : y ≤ 65535) :
    dowNoOverflow y m d ∧
    day_of_week_machine y m d = day_of_week y m d ∧
    day_of_week y m d ≤ 6 ∧
    dowMatch (day_of_week dt.year dt.month dt.day) ≠ none ∧
    (MIN_YEAR ≤ dt.year → dt.year ≤ MAX_YEAR → (holiday_kind dt).isSome = true) := by
  obtain ⟨hdt, hy1, hm1, hm12, hd1, hd31⟩ := from_ymd_inv hval
  refine ⟨?_, ?_, ?_, ?_, ?_⟩
  · unfold dowNoOverflow
    by_cases h : m > 2
    · simp only [if_pos h]
      omega
    · simp only [if_neg h]
      omega
  · unfold day_of_week_machine day_of_week
    by_cases h : m > 2
    · simp only [if_pos h]
      have e1 : 13 * (m - 2) % 256 = 13 * (m - 2) := Nat.mod_eq_of_lt (by omega)
      rw [e1]
      have e2 : (13 * (m - 2) + 255) % 256 = 13 * (m - 2) - 1 := by omega
      rw [e2]
      have e3 : ((13 * (m - 2) - 1) / 5 + d) % 256 = (13 * (m - 2) - 1) / 5 + d :=
        Nat.mod_eq_of_lt (by omega)
      rw [e3]
      have e4 : ((13 * (m - 2) - 1) / 5 + d + y % 100 + y % 100 / 4 + y / 100 / 4 +
          5 * (y / 100)) % 65536 =
          (13 * (m - 2) - 1) / 5 + d + y % 100 + y % 100 / 4 + y / 100 / 4 + 5 * (y / 100) :=
        Nat.mod_eq_of_lt (by omega)
      rw [e4]
    · simp only [if_neg h]
      have f1 : (m + 10) % 256 = m + 10 := Nat.mod_eq_of_lt (by omega)
      rw [f1]
      have f2 : (y + 65535) % 65536 = y - 1 := by omega
      rw [f2]
      have f3 : 13 * (m + 10) % 256 = 13 * (m + 10) := Nat.mod_eq_of_lt (by omega)
      rw [f3]
      have f4 : (13 * (m + 10) + 255) % 256 = 13 * (m + 10) - 1 := by omega
      rw [f4]
      have f5 : ((13 * (m + 10) - 1) / 5 + d) % 256 = (13 * (m + 10) - 1) / 5 + d :=
        Nat.mod_eq_of_lt (by omega)
      rw [f5]
      have f6 : ((13 * (m + 10) - 1) / 5 + d + (y - 1) % 100 + (y - 1) % 100 / 4 +
          (y - 1) / 100 / 4 + 5 * ((y - 1) / 100)) % 65536 =
          (13 * (m + 10) - 1) / 5 + d + (y - 1) % 100 + (y - 1) % 100 / 4 +
          (y - 1) / 100 / 4 + 5 * ((y - 1) / 100) :=
        Nat.mod_eq_of_lt (by omega)
      rw [f6]
  · have := day_of_week_lt y m d
    omega
  · exact dowMatch_ne_none (day_of_week_lt dt.year dt.month dt.day)
  · intro h1 h2
    exact holiday_kind_in_range h1 h2

/-- Witness for C8 at the concrete leap-day 2024-02-29. -/
theorem claim_c8_witness :
    dowNoOverflow 2024 2 29 ∧ day_of_week_machine 2024 2 29 = day_of_week 2024 2 29 := by
  have h := claim_c8 2024 2 29 ⟨2024, 2, 29⟩ (by decide) (by decide)
  exact ⟨h.1, h.2.1⟩

/-- Counterexample to C9 as stated: `chrono::NaiveDate` accepts year 0
(`from_ymd_opt(0, 1, 1)` is `Some`), and the adapter's `year() as u16` cast
turns it into a `HolidayDate` with `year = 0`, violating the Civil Date
invariant (a date `from_ymd` itself rejects) — the conversion does not always
yield an invariant-satisfying `HolidayDate`. -/
theorem claim_c9_counterexample :
    NaiveDate.valid ⟨0, 1, 1⟩ ∧
    (HolidayDate.fromNaiveDate ⟨0, 1, 1⟩).year = 0 ∧
    HolidayDate.from_ymd (HolidayDate.fromNaiveDate ⟨0, 1, 1⟩).year
      (HolidayDate.fromNaiveDate ⟨0, 1, 1⟩).month
      (HolidayDate.fromNaiveDate ⟨0, 1, 1⟩).day = none := by decide

/-- Claim C9 as amended: the conversions never fail or panic and yield a
`HolidayDate` satisfying the Civil Date invariant provided the foreign year
lies in `[1, 65535]` (the `u16` range the `as` cast preserves); zoned inputs
are first normalized to the fixed UTC+8 offset, so the UTC instant
2024-10-01T20:00:00Z (Unix second 1727812800) converts to the valid civil
date 2024-10-02. -/
theorem claim_c9_amended :
    (∀ nd : NaiveDate, nd.valid → 1 ≤ nd.year → nd.year ≤ 65535 →
      HolidayDate.from_ymd (HolidayDate.fromNaiveDate nd).year
        (HolidayDate.fromNaiveDate nd).month (HolidayDate.fromNaiveDate nd).day =
        some (HolidayDate.fromNaiveDate nd)) ∧
    (∀ ndt : NaiveDateTime, ndt.date.valid → 1 ≤ ndt.date.year → ndt.date.year ≤ 65535 →
      HolidayDate.from_ymd (HolidayDate.fromNaiveDateTime ndt).year
        (HolidayDate.fromNaiveDateTime ndt).month (HolidayDate.fromNaiveDateTime ndt).day =
        some (HolidayDate.fromNaiveDateTime ndt)) ∧
    daysFromCivil 2024 10 1 * 86400 + 20 * 3600 = 1727812800 ∧
    HolidayDate.fromZonedDateTime ⟨1727812800⟩ = ⟨2024, 10, 2⟩ ∧
    HolidayDate.from_ymd 2024 10 2 = some ⟨2024, 10, 2⟩ := by
  have main : ∀ nd : NaiveDate, nd.valid → 1 ≤ nd.year → nd.year ≤ 65535 →
      HolidayDate.from_ymd (HolidayDate.fromNaiveDate nd).year
        (HolidayDate.fromNaiveDate nd).month (HolidayDate.fromNaiveDate nd).day =
        some (HolidayDate.fromNaiveDate nd) := by
    intro nd hv h1 h65
    obtain ⟨hm1, hm12, hd1, hdlen⟩ := hv
    have hlen31 : intMonthLength nd.year nd.month ≤ 31 := by
      unfold intMonthLength
      split_ifs <;> omega
    have hfd : HolidayDate.fromNaiveDate nd = ⟨nd.year.toNat, nd.month, nd.day⟩ := by
      show (⟨(nd.year % 65536).toNat, nd.month % 256, nd.day % 256⟩ : HolidayDate) = _
      rw [show (nd.year % 65536).toNat = nd.year.toNat by omega,
        show nd.month % 256 = nd.month by omega,
        show nd.day % 256 = nd.day by omega]
    have hml : monthLength nd.year.toNat nd.month = intMonthLength nd.year nd.month := by
      unfold monthLength intMonthLength isLeapYear intLeap
      split_ifs <;> first | rfl | (exfalso; omega)
    have hreal : isRealDate nd.year.toNat nd.month nd.day := by
      refine ⟨by omega, hm1, hm12, hd1, ?_⟩
      rw [hml]
      exact hdlen
    rw [hfd, from_ymd_eq_ite, if_pos hreal]
  exact ⟨main, fun ndt hv h1 h65 => main ndt.date hv h1 h65, by decide, by decide, by decide⟩

/-- Witness for the amended C9 at the concrete `NaiveDate` 2024-10-01. -/
theorem claim_c9_amended_witness :
    HolidayDate.from_ymd (HolidayDate.fromNaiveDate ⟨2024, 10, 1⟩).year
      (HolidayDate.fromNaiveDate ⟨2024, 10, 1⟩).month
      (HolidayDate.fromNaiveDate ⟨2024, 10, 1⟩).day =
      some (HolidayDate.fromNaiveDate ⟨2024, 10, 1⟩) :=
  claim_c9_amended.1 ⟨2024, 10, 1⟩ (by decide) (by decide) (by decide)
